import Mathlib

/-!
Verification development for the PTV route viewer (`app.py`).

This file shallowly embeds the core logic of the application:

* the sequence reconciler and route-stops aggregation (`get_route_stops`),
* the proximity matcher (`find_nearby_gigs_for_stops`),
* the directional variant (`show_gigs_ahead`),
* the great-circle distance calculator (`calculate_distance`),

and proves the specified properties about them.  Upstream HTTP calls are
modelled by a record of oracles (`Fetchers`): each oracle value describes
one possible behaviour of the corresponding network fetch (`none` being
a failed request), so theorems quantified over `Fetchers` cover every
possible upstream behaviour.  Numeric JSON fields are modelled by `Int`
(identifiers, sequence numbers) and `Rat` (coordinates); the
floating-point distance function is modelled two ways: as a real-valued
`calculate_distance` for its algebraic properties, and as an abstract
parameter `dist` of the proximity matcher, standing for whatever number
the calculator returns.
-/

namespace PtvApp

/-- An event ("gig") from the gigs API.  The venue coordinates are
optional because the upstream JSON may lack the `latitude` /
`longitude` keys (`'latitude' in venue` checks in `app.py`). -/
structure Gig where
  name : String
  date : String
  start_time : String
  venue_latitude : Option Rat
  venue_longitude : Option Rat
  deriving DecidableEq, Repr

/-- A stop record, as the dict that flows through `get_route_stops`.
`stop_sequence` is the raw upstream sequence number (the key may be
absent), `absolute_sequence` the reconciled one (line 299/302/305 of
`app.py`), `nearby_gigs` the attached events with their annotated
`distance_meters`.  Raw stops from the stops endpoint carry placeholder
values for the fields the pipeline fills in later. -/
structure Stop where
  stop_id : Int
  stop_name : String
  stop_sequence : Option Int
  stop_latitude : Rat
  stop_longitude : Rat
  direction_id : Int
  direction_name : String
  absolute_sequence : Int
  nearby_gigs : List (Gig × Rat)
  deriving DecidableEq, Repr

/-- The `stop` object of a stop-details response
(`/v3/stops/{stop_id}/route_type/{t}`).  Every field is optional: the
overlay `stop.update(stop_details['stop'])` copies exactly the keys the
response contains — including, when present, `stop_id` itself. -/
structure StopDetails where
  stop_id : Option Int
  stop_name : Option String
  stop_latitude : Option Rat
  stop_longitude : Option Rat
  deriving DecidableEq, Repr

/-- A direction of travel for a route. -/
structure Direction where
  direction_id : Int
  direction_name : String
  deriving DecidableEq, Repr

/-- One departure of a pattern response; `stop_id` / `stop_sequence`
use `departure.get(...)`, hence optional. -/
structure Departure where
  stop_id : Option Int
  stop_sequence : Option Int
  deriving DecidableEq, Repr

/-- The aggregated result of `get_route_stops` (the `stops_data` dict):
route name, the directions list, and the per-direction sorted stop
lists keyed by direction id. -/
structure RouteStopsResult where
  route_name : String
  directions : List Direction
  stops_by_direction : List (Int × List Stop)
  deriving DecidableEq, Repr

/-- Oracles describing the behaviour of every upstream fetch made by
`get_route_stops` during one computation.

* `route_resp`: the route name from `/v3/routes/{id}`; `none` covers
  both a failed request and a response without a `route` key (both fall
  back to `str(route_id)`).
* `directions_resp`: the `directions` list; `none` covers a failed
  request and a response without the key (both return `None`).
* `pattern_resp`: departures of the pattern endpoint, per direction id;
  `none` is a failed request (non-fatal: empty sequence map).
* `stops_resp`: per direction id; `none` is a failed request (fatal:
  the whole computation returns `None`); `some none` is a 200 response
  without a `stops` key (the direction is skipped with a warning);
  `some (some l)` is the stop list.
* `details_resp`: per stop id; `none` covers a failed request and a
  response without a `stop` key (both leave the stop un-enriched). -/
structure Fetchers where
  route_resp : Option String
  directions_resp : Option (List Direction)
  pattern_resp : Int → Option (List Departure)
  stops_resp : Int → Option (Option (List Stop))
  details_resp : Int → Option StopDetails

/-- Build the `sequence_map` dict from pattern departures (lines
251-257): entries with both `stop_id` and `stop_sequence` present are
inserted, later departures overwriting earlier ones (dict assignment);
the head of the list is the most recent assignment. -/
def buildSequenceMap (deps : List Departure) : List (Int × Int) :=
  deps.foldl
    (fun m dep =>
      match dep.stop_id, dep.stop_sequence with
      | some i, some s => (i, s) :: m
      | _, _ => m)
    []

/-- `sequence_map.get(stop_id)`: the most recent entry for the key. -/
def lookupSeq (m : List (Int × Int)) (i : Int) : Option Int :=
  (m.find? (fun p => p.1 == i)).map Prod.snd

/-- The sequence map used for one direction: built from the pattern
response, or empty when the pattern fetch failed (lines 262-264). -/
def seqMapFor (f : Fetchers) (direction_id : Int) : List (Int × Int) :=
  match f.pattern_resp direction_id with
  | some deps => buildSequenceMap deps
  | none => []

/-- The sequence reconciliation policy (lines 298-306): the pattern
sequence when present; else the raw sequence when present and strictly
positive; else the sentinel `999999`. -/
def absoluteSequence (patternSeq : Option Int) (origSeq : Option Int) : Int :=
  match patternSeq with
  | some p => p
  | none =>
    match origSeq with
    | some r => if 0 < r then r else 999999
    | none => 999999

/-- `stop.update(stop_details['stop'])`: each field present in the
details overwrites the stop's field (Python `dict.update`). -/
def updateStop (s : Stop) (d : StopDetails) : Stop :=
  { s with
    stop_id := d.stop_id.getD s.stop_id
    stop_name := d.stop_name.getD s.stop_name
    stop_latitude := d.stop_latitude.getD s.stop_latitude
    stop_longitude := d.stop_longitude.getD s.stop_longitude }

/-- Lines 284-291: set the direction fields on the stop, then fetch the
details for the stop's (raw) id and overlay them when the fetch
succeeded. -/
def enrichStop (details : Int → Option StopDetails) (dir : Direction) (s : Stop) : Stop :=
  let s1 := { s with direction_id := dir.direction_id, direction_name := dir.direction_name }
  match details s.stop_id with
  | some d => updateStop s1 d
  | none => s1

/-- Lines 284-306: one stop of the per-direction loop body — enrich,
then reconcile the sequence.  The pattern lookup uses the id and raw
sequence of the stop *after* enrichment (lines 294-296 re-read the
dict after `update`). -/
def processStop (details : Int → Option StopDetails) (dir : Direction)
    (sm : List (Int × Int)) (s : Stop) : Stop :=
  let s2 := enrichStop details dir s
  { s2 with absolute_sequence := absoluteSequence (lookupSeq sm s2.stop_id) s2.stop_sequence }

/-- Ordering of stops by reconciled sequence, as in
`stops.sort(key=lambda x: x['absolute_sequence'])`. -/
def stopLe (a b : Stop) : Prop :=
  a.absolute_sequence ≤ b.absolute_sequence

instance : DecidableRel stopLe := fun a b =>
  inferInstanceAs (Decidable (a.absolute_sequence ≤ b.absolute_sequence))

instance : IsTotal Stop stopLe :=
  ⟨fun a b => Int.le_total a.absolute_sequence b.absolute_sequence⟩

instance : IsTrans Stop stopLe :=
  ⟨fun _ _ _ h1 h2 => le_trans h1 h2⟩

/-- Lines 237-335: process one direction.  Result:
`none` — the stops request failed, aborting the whole computation;
`some none` — no `stops` key, the direction is skipped;
`some (some (direction_id, valid_stops))` — the processed, sorted and
filtered stop list for this direction. -/
def processDirection (f : Fetchers) (dir : Direction) : Option (Option (Int × List Stop)) :=
  let sm := seqMapFor f dir.direction_id
  match f.stops_resp dir.direction_id with
  | none => none
  | some none => some none
  | some (some stops) =>
    let processed := stops.map (processStop f.details_resp dir sm)
    let sorted := processed.insertionSort stopLe
    let valid := sorted.filter (fun s => s.absolute_sequence ≠ 999999)
    some (some (dir.direction_id, valid))

/-- The per-direction loop of `get_route_stops` (lines 233-344):
accumulates the `stops_by_direction` entries in direction order,
aborting everything on the first failed stops request. -/
def processDirections (f : Fetchers) : List Direction → Option (List (Int × List Stop))
  | [] => some []
  | dir :: rest =>
    match processDirection f dir with
    | none => none
    | some none => processDirections f rest
    | some (some entry) => (processDirections f rest).map (fun l => entry :: l)

/-- `get_route_stops(route_id, route_type)` (lines 185-348), as a pure
function of the cached snapshot and the upstream oracles.  The first
component is the returned value (`none` = Python `None`); the second is
the value written to the cache under this route's key during the call
(`none` = no write). -/
def get_route_stops (route_id : Int) (cached : Option RouteStopsResult) (f : Fetchers) :
    Option RouteStopsResult × Option RouteStopsResult :=
  match cached with
  | some c => (some c, none)
  | none =>
    let route_name := f.route_resp.getD (toString route_id)
    match f.directions_resp with
    | none => (none, none)
    | some dirs =>
      match processDirections f dirs with
      | none => (none, none)
      | some sbd =>
        let result : RouteStopsResult :=
          { route_name := route_name, directions := dirs, stops_by_direction := sbd }
        (some result, some result)

/-- The inner gig loop shared by `find_nearby_gigs_for_stops` (lines
448-460) and `show_gigs_ahead` (lines 543-555, 569-581): the events
whose venue has both coordinates and whose computed distance to the
stop is at most 500, each paired with that distance.  `dist` stands
for `calculate_distance`. -/
def nearbyGigsFor (dist : Rat → Rat → Rat → Rat → Rat) (s : Stop) (gigs : List Gig) :
    List (Gig × Rat) :=
  gigs.filterMap (fun g =>
    match g.venue_latitude, g.venue_longitude with
    | some la, some lo =>
      let d := dist s.stop_latitude s.stop_longitude la lo
      if d ≤ 500 then some (g, d) else none
    | _, _ => none)

/-- Ordering of attached gigs by annotated distance, as in
`sorted(nearby_gigs, key=lambda x: x['distance_meters'])`. -/
def gigLe (a b : Gig × Rat) : Prop :=
  a.2 ≤ b.2

instance : DecidableRel gigLe := fun a b =>
  inferInstanceAs (Decidable (a.2 ≤ b.2))

instance : IsTotal (Gig × Rat) gigLe :=
  ⟨fun a b => le_total a.2 b.2⟩

instance : IsTrans (Gig × Rat) gigLe :=
  ⟨fun _ _ _ h1 h2 => le_trans h1 h2⟩

/-- `sorted(nearby_gigs, key=...)`: a stable ascending sort. -/
def sortGigs (l : List (Gig × Rat)) : List (Gig × Rat) :=
  l.insertionSort gigLe

/-- `find_nearby_gigs_for_stops(stops, gigs)` (lines 438-467): the
subset of stops with at least one retained event, each with its sorted
`nearby_gigs` attached, together with the `any_gigs_found` flag. -/
def find_nearby_gigs_for_stops (dist : Rat → Rat → Rat → Rat → Rat)
    (stops : List Stop) (gigs : List Gig) : List Stop × Bool :=
  match stops with
  | [] => ([], false)
  | s :: rest =>
    let ng := nearbyGigsFor dist s gigs
    let r := find_nearby_gigs_for_stops dist rest gigs
    if ng.isEmpty then r
    else ({ s with nearby_gigs := sortGigs ng } :: r.1, true)

/-- The core of `show_gigs_ahead` (lines 516-593), given the stop list
of the requested direction: find the first stop with the requested id
and its raw sequence (error — `none` — when absent or sequence-less);
check the current stop for nearby gigs; then scan the whole direction,
keeping stops whose raw sequence (defaulting to 0) strictly exceeds
the current one. -/
def show_gigs_ahead (dist : Rat → Rat → Rat → Rat → Rat)
    (stops_in_direction : List Stop) (stop_id : Int) (gigs : List Gig) :
    Option (List Stop × Bool) :=
  match stops_in_direction.find? (fun s => s.stop_id == stop_id) with
  | none => none
  | some cur =>
    match cur.stop_sequence with
    | none => none
    | some cs =>
      let ng := nearbyGigsFor dist cur gigs
      let start : List Stop × Bool :=
        if ng.isEmpty then ([], false)
        else ([{ cur with nearby_gigs := sortGigs ng }], true)
      some (stops_in_direction.foldl
        (fun acc s =>
          if cs < s.stop_sequence.getD 0 then
            if (nearbyGigsFor dist s gigs).isEmpty then acc
            else (acc.1 ++ [{ s with nearby_gigs := sortGigs (nearbyGigsFor dist s gigs) }], true)
          else acc)
        start)

/-- `math.radians`. -/
noncomputable def radians (x : ℝ) : ℝ :=
  x * Real.pi / 180

open Classical in
/-- `math.atan2(y, x)`, by its standard piecewise definition (the
calculator only ever reaches the `0 < x` and `atan2 0 0 = 0` cases). -/
noncomputable def atan2 (y x : ℝ) : ℝ :=
  if 0 < x then Real.arctan (y / x)
  else if x < 0 ∧ 0 ≤ y then Real.arctan (y / x) + Real.pi
  else if x < 0 ∧ y < 0 then Real.arctan (y / x) - Real.pi
  else if x = 0 ∧ 0 < y then Real.pi / 2
  else if x = 0 ∧ y < 0 then -(Real.pi / 2)
  else 0

/-- The `a` of the haversine formula (line 432). -/
noncomputable def haversine_a (lat1 lon1 lat2 lon2 : ℝ) : ℝ :=
  Real.sin ((radians lat2 - radians lat1) / 2) ^ 2 +
    Real.cos (radians lat1) * Real.cos (radians lat2) *
      Real.sin ((radians lon2 - radians lon1) / 2) ^ 2

/-- `calculate_distance(lat1, lon1, lat2, lon2)` (lines 424-436), over
the reals (the idealisation of the float code). -/
noncomputable def calculate_distance (lat1 lon1 lat2 lon2 : ℝ) : ℝ :=
  6371000 *
    (2 * atan2 (Real.sqrt (haversine_a lat1 lon1 lat2 lon2))
      (Real.sqrt (1 - haversine_a lat1 lon1 lat2 lon2)))

/-! ### Concrete fixtures used by the witness theorems -/

def gigW : Gig :=
  { name := "gig", date := "2025-01-01", start_time := "19:00",
    venue_latitude := some 1, venue_longitude := some 2 }

def stopW : Stop :=
  { stop_id := 5, stop_name := "stop", stop_sequence := some 3,
    stop_latitude := 1, stop_longitude := 2, direction_id := 0,
    direction_name := "", absolute_sequence := 0, nearby_gigs := [] }

def stopW2 : Stop := { stopW with stop_id := 6, stop_sequence := some 1 }

def dirW : Direction := { direction_id := 0, direction_name := "City" }

def distW : Rat → Rat → Rat → Rat → Rat := fun _ _ _ _ => 100

def attachedW : Stop := { stopW with nearby_gigs := [(gigW, 100)] }

def fetchW : Fetchers :=
  { route_resp := some "Route 1", directions_resp := some [dirW],
    pattern_resp := fun _ => some [{ stop_id := some 5, stop_sequence := some 10 }],
    stops_resp := fun _ => some (some [stopW, stopW2]),
    details_resp := fun _ => none }

def entryW : Int × List Stop :=
  (0, [{ stopW2 with direction_name := "City", absolute_sequence := 1 },
       { stopW with direction_name := "City", absolute_sequence := 10 }])

def resultW : RouteStopsResult :=
  { route_name := "Route 1", directions := [dirW], stops_by_direction := [entryW] }

def fetchFailW : Fetchers := { fetchW with stops_resp := fun _ => none }

def fetchNoDirW : Fetchers := { fetchW with directions_resp := none }

def detW : StopDetails :=
  { stop_id := some 2, stop_name := none, stop_latitude := none, stop_longitude := none }

def detSameW : StopDetails :=
  { stop_id := some 5, stop_name := some "renamed", stop_latitude := none,
    stop_longitude := none }

/-! ### Helper lemmas about the proximity matcher -/

theorem mem_nearbyGigsFor {dist : Rat → Rat → Rat → Rat → Rat} {s : Stop} {gigs : List Gig}
    {gd : Gig × Rat} (h : gd ∈ nearbyGigsFor dist s gigs) :
    ∃ la lo, gd.1.venue_latitude = some la ∧ gd.1.venue_longitude = some lo ∧
      gd.2 = dist s.stop_latitude s.stop_longitude la lo ∧ gd.2 ≤ 500 := by
  unfold nearbyGigsFor at h
  rw [List.mem_filterMap] at h
  obtain ⟨g, -, hfg⟩ := h
  rcases hla : g.venue_latitude with _ | la <;> rw [hla] at hfg
  · exact absurd hfg (by simp)
  · rcases hlo : g.venue_longitude with _ | lo <;> rw [hlo] at hfg
    · exact absurd hfg (by simp)
    · simp only [] at hfg
      by_cases hle : dist s.stop_latitude s.stop_longitude la lo ≤ 500
      · rw [if_pos hle] at hfg
        obtain rfl := Option.some.inj hfg
        exact ⟨la, lo, hla, hlo, rfl, hle⟩
      · rw [if_neg hle] at hfg
        exact absurd hfg (by simp)

theorem find_nearby_fst (dist : Rat → Rat → Rat → Rat → Rat) (gigs : List Gig)
    (stops : List Stop) :
    (find_nearby_gigs_for_stops dist stops gigs).1 =
      stops.filterMap (fun s =>
        if (nearbyGigsFor dist s gigs).isEmpty then none
        else some { s with nearby_gigs := sortGigs (nearbyGigsFor dist s gigs) }) := by
  induction stops with
  | nil => rfl
  | cons s rest ih =>
    rw [List.filterMap_cons]
    simp only [find_nearby_gigs_for_stops]
    cases h : (nearbyGigsFor dist s gigs).isEmpty <;> simp [h, ih]

theorem find_nearby_snd (dist : Rat → Rat → Rat → Rat → Rat) (gigs : List Gig)
    (stops : List Stop) :
    (find_nearby_gigs_for_stops dist stops gigs).2 = true ↔
      (find_nearby_gigs_for_stops dist stops gigs).1 ≠ [] := by
  induction stops with
  | nil => simp [find_nearby_gigs_for_stops]
  | cons s rest ih =>
    simp only [find_nearby_gigs_for_stops]
    cases h : (nearbyGigsFor dist s gigs).isEmpty
    · simp [h]
    · simp [h, ih]

theorem sortGigs_ne_nil {l : List (Gig × Rat)} (h : l ≠ []) : sortGigs l ≠ [] := by
  intro hc
  apply h
  have := List.length_insertionSort gigLe l
  rw [show sortGigs l = l.insertionSort gigLe from rfl] at hc
  rw [hc] at this
  exact List.length_eq_zero.mp this.symm

/-- C3: in proximity matching, an event whose venue lacks a latitude or a
longitude is never attached to any stop, and every attached event is
annotated with the distance computed by the calculator to that stop's
coordinates, which is at most 500 meters. -/
theorem nearby_gigs_have_coords_within_radius (dist : Rat → Rat → Rat → Rat → Rat)
    (stops : List Stop) (gigs : List Gig) :
    ∀ s ∈ (find_nearby_gigs_for_stops dist stops gigs).1, ∀ gd ∈ s.nearby_gigs,
      ∃ la lo, gd.1.venue_latitude = some la ∧ gd.1.venue_longitude = some lo ∧
        gd.2 = dist s.stop_latitude s.stop_longitude la lo ∧ gd.2 ≤ 500 := by
  intro s hs gd hgd
  rw [find_nearby_fst, List.mem_filterMap] at hs
  obtain ⟨s0, -, hf⟩ := hs
  by_cases h : (nearbyGigsFor dist s0 gigs).isEmpty
  · rw [if_pos h] at hf
    exact absurd hf (by simp)
  · rw [if_neg h] at hf
    obtain rfl := Option.some.inj hf
    have hmem : gd ∈ nearbyGigsFor dist s0 gigs :=
      (List.mem_insertionSort gigLe).mp hgd
    exact mem_nearbyGigsFor hmem

/-- C4: the proximity matcher's output: every output stop carries a
non-empty nearby list sorted ascending by annotated distance; the
`any_gigs_found` flag is true iff some stop has a non-empty nearby
list; and the output is exactly the subset of input stops whose
computed nearby list is non-empty, each with that list attached. -/
theorem find_nearby_output_sorted_any (dist : Rat → Rat → Rat → Rat → Rat)
    (stops : List Stop) (gigs : List Gig) :
    (∀ s ∈ (find_nearby_gigs_for_stops dist stops gigs).1,
      s.nearby_gigs ≠ [] ∧ List.Sorted gigLe s.nearby_gigs) ∧
    ((find_nearby_gigs_for_stops dist stops gigs).2 = true ↔
      ∃ s ∈ (find_nearby_gigs_for_stops dist stops gigs).1, s.nearby_gigs ≠ []) ∧
    (find_nearby_gigs_for_stops dist stops gigs).1 =
      stops.filterMap (fun s =>
        if (nearbyGigsFor dist s gigs).isEmpty then none
        else some { s with nearby_gigs := sortGigs (nearbyGigsFor dist s gigs) }) := by
  have hA : ∀ s ∈ (find_nearby_gigs_for_stops dist stops gigs).1,
      s.nearby_gigs ≠ [] ∧ List.Sorted gigLe s.nearby_gigs := by
    intro s hs
    rw [find_nearby_fst, List.mem_filterMap] at hs
    obtain ⟨s0, -, hf⟩ := hs
    by_cases h : (nearbyGigsFor dist s0 gigs).isEmpty
    · rw [if_pos h] at hf
      exact absurd hf (by simp)
    · rw [if_neg h] at hf
      obtain rfl := Option.some.inj hf
      refine ⟨sortGigs_ne_nil ?_, List.sorted_insertionSort gigLe _⟩
      intro hc
      rw [hc] at h
      exact h rfl
  refine ⟨hA, ⟨?_, ?_⟩, find_nearby_fst dist gigs stops⟩
  · intro hflag
    have hne := (find_nearby_snd dist gigs stops).mp hflag
    obtain ⟨s, hs⟩ := List.exists_mem_of_ne_nil _ hne
    exact ⟨s, hs, (hA s hs).1⟩
  · rintro ⟨s, hs, -⟩
    exact (find_nearby_snd dist gigs stops).mpr (List.ne_nil_of_mem hs)

/-! ### The directional variant -/

theorem gigs_ahead_fold (dist : Rat → Rat → Rat → Rat → Rat) (gigs : List Gig) (cs : Int)
    (l : List Stop) (acc : List Stop × Bool) :
    l.foldl
      (fun acc s =>
        if cs < s.stop_sequence.getD 0 then
          if (nearbyGigsFor dist s gigs).isEmpty then acc
          else (acc.1 ++ [{ s with nearby_gigs := sortGigs (nearbyGigsFor dist s gigs) }], true)
        else acc)
      acc =
    (acc.1 ++
        (find_nearby_gigs_for_stops dist
          (l.filter (fun s => cs < s.stop_sequence.getD 0)) gigs).1,
      acc.2 ||
        (find_nearby_gigs_for_stops dist
          (l.filter (fun s => cs < s.stop_sequence.getD 0)) gigs).2) := by
  induction l generalizing acc with
  | nil => simp [find_nearby_gigs_for_stops]
  | cons s rest ih =>
    rw [List.foldl_cons, List.filter_cons, ih]
    by_cases hc : cs < s.stop_sequence.getD 0
    · by_cases h2 : nearbyGigsFor dist s gigs = [] <;>
        simp [hc, h2, find_nearby_gigs_for_stops]
    · simp [hc]

/-- C6: the directional "gigs ahead" operation reports not-found when no
stop in the direction matches the identifier or the first match has no
raw sequence number; otherwise it is exactly the proximity matcher run
on the matched stop followed by every stop of the direction whose raw
sequence (defaulting to 0 when absent) strictly exceeds the matched
stop's raw sequence. -/
theorem gigs_ahead_candidate_set (dist : Rat → Rat → Rat → Rat → Rat)
    (stops_in_direction : List Stop) (stop_id : Int) (gigs : List Gig) :
    show_gigs_ahead dist stops_in_direction stop_id gigs =
      (stops_in_direction.find? (fun s => s.stop_id == stop_id)).bind (fun cur =>
        cur.stop_sequence.map (fun cs =>
          find_nearby_gigs_for_stops dist
            (cur :: stops_in_direction.filter (fun s => cs < s.stop_sequence.getD 0))
            gigs)) := by
  unfold show_gigs_ahead
  cases hfind : stops_in_direction.find? (fun s => s.stop_id == stop_id) with
  | none => rfl
  | some cur =>
    cases hseq : cur.stop_sequence with
    | none => simp [hseq]
    | some cs =>
      simp only [hseq]
      rw [gigs_ahead_fold]
      by_cases h2 : nearbyGigsFor dist cur gigs = [] <;>
        simp [hseq, h2, find_nearby_gigs_for_stops]

/-! ### Helper lemmas about the aggregation -/

theorem processDirection_entry {f : Fetchers} {d : Direction} {e : Int × List Stop}
    (h : processDirection f d = some (some e)) :
    List.Sorted stopLe e.2 ∧ ∀ s ∈ e.2, s.absolute_sequence ≠ 999999 := by
  unfold processDirection at h
  rcases hs : f.stops_resp d.direction_id with _ | (_ | stops) <;> rw [hs] at h
  · exact absurd h (by simp)
  · exact absurd h (by simp)
  · obtain rfl := Option.some.inj (Option.some.inj h)
    refine ⟨(List.sorted_insertionSort stopLe _).filter _, ?_⟩
    intro s hs2
    simpa using (List.mem_filter.mp hs2).2

theorem processDirections_entries {f : Fetchers} {dirs : List Direction}
    {sbd : List (Int × List Stop)} (h : processDirections f dirs = some sbd) :
    ∀ p ∈ sbd, List.Sorted stopLe p.2 ∧ ∀ s ∈ p.2, s.absolute_sequence ≠ 999999 := by
  induction dirs generalizing sbd with
  | nil =>
    obtain rfl := Option.some.inj h
    intro p hp
    cases hp
  | cons d rest ih =>
    simp only [processDirections] at h
    cases hd : processDirection f d <;> rw [hd] at h
    · exact absurd h (by simp)
    · next o =>
      cases o with
      | none => exact ih h
      | some e =>
        rw [Option.map_eq_some'] at h
        obtain ⟨tl, htl, rfl⟩ := h
        intro p hp
        rcases List.mem_cons.mp hp with rfl | hp2
        · exact processDirection_entry hd
        · exact ih htl p hp2

theorem processDirections_abort {f : Fetchers} {dirs : List Direction} {d : Direction}
    (hmem : d ∈ dirs) (hfail : f.stops_resp d.direction_id = none) :
    processDirections f dirs = none := by
  induction dirs with
  | nil => cases hmem
  | cons d0 rest ih =>
    rcases List.mem_cons.mp hmem with rfl | hm
    · have hd : processDirection f d = none := by
        unfold processDirection
        rw [hfail]
      simp [processDirections, hd]
    · cases hd : processDirection f d0 with
      | none => simp [processDirections, hd]
      | some o =>
        cases o with
        | none => simp [processDirections, hd, ih hm]
        | some e => simp [processDirections, hd, ih hm]

theorem processDirections_congr {f1 f2 : Fetchers}
    (hsm : ∀ i, seqMapFor f1 i = seqMapFor f2 i)
    (hst : f1.stops_resp = f2.stops_resp)
    (hdt : f1.details_resp = f2.details_resp) (dirs : List Direction) :
    processDirections f1 dirs = processDirections f2 dirs := by
  induction dirs with
  | nil => rfl
  | cons d rest ih =>
    have hd : processDirection f1 d = processDirection f2 d := by
      unfold processDirection
      rw [hsm d.direction_id, hst, hdt]
    simp only [processDirections, hd, ih]

theorem processDirections_isSome_details (f : Fetchers) (g : Int → Option StopDetails)
    (dirs : List Direction) :
    (processDirections { f with details_resp := g } dirs).isSome =
      (processDirections f dirs).isSome := by
  induction dirs with
  | nil => rfl
  | cons d rest ih =>
    simp only [processDirections, processDirection]
    cases hs : f.stops_resp d.direction_id with
    | none => simp [hs]
    | some o =>
      cases o with
      | none => simpa [hs] using ih
      | some stops => simp [hs, ih]

/-! ### The claims about the aggregation -/

/-- C1: for every stop processed by the route-stops aggregation, the
reconciled `absolute_sequence` follows the policy: pattern sequence
when the (post-enrichment) stop id has one; else the raw sequence when
present and strictly positive; else the sentinel `999999`. -/
theorem absolute_sequence_reconciliation (details : Int → Option StopDetails)
    (dir : Direction) (sm : List (Int × Int)) (s : Stop) :
    (∀ p, lookupSeq sm (enrichStop details dir s).stop_id = some p →
      (processStop details dir sm s).absolute_sequence = p) ∧
    (lookupSeq sm (enrichStop details dir s).stop_id = none →
      ∀ r, (enrichStop details dir s).stop_sequence = some r → 0 < r →
        (processStop details dir sm s).absolute_sequence = r) ∧
    (lookupSeq sm (enrichStop details dir s).stop_id = none →
      ((enrichStop details dir s).stop_sequence = none ∨
        ∃ r, (enrichStop details dir s).stop_sequence = some r ∧ r ≤ 0) →
      (processStop details dir sm s).absolute_sequence = 999999) := by
  have hps : (processStop details dir sm s).absolute_sequence =
      absoluteSequence (lookupSeq sm (enrichStop details dir s).stop_id)
        (enrichStop details dir s).stop_sequence := rfl
  refine ⟨?_, ?_, ?_⟩
  · intro p hp
    rw [hps, hp]
    rfl
  · intro hn r hr hpos
    rw [hps, hn, hr]
    simp [absoluteSequence, hpos]
  · intro hn hcase
    rw [hps, hn]
    rcases hcase with hnone | ⟨r, hr, hle⟩
    · rw [hnone]
      rfl
    · rw [hr]
      simp [absoluteSequence, not_lt.mpr hle]

/-- C2: in every successful (freshly computed) route-stops result, each
direction's stop list is sorted ascending by `absolute_sequence` and
contains no stop carrying the `999999` sentinel. -/
theorem route_stops_sorted_and_valid (route_id : Int) (f : Fetchers)
    (r : RouteStopsResult) (w : Option RouteStopsResult)
    (h : get_route_stops route_id none f = (some r, w)) :
    ∀ p ∈ r.stops_by_direction,
      List.Sorted stopLe p.2 ∧ ∀ s ∈ p.2, s.absolute_sequence ≠ 999999 := by
  unfold get_route_stops at h
  cases hdir : f.directions_resp <;> rw [hdir] at h
  · exact absurd h (by simp)
  · next dirs =>
    simp only [] at h
    cases hpd : processDirections f dirs <;> rw [hpd] at h
    · exact absurd h (by simp)
    · next sbd =>
      simp only [Prod.mk.injEq, Option.some.injEq] at h
      obtain ⟨rfl, -⟩ := h
      exact processDirections_entries hpd

/-- C5: a failed stop-list fetch for any single direction makes the
whole route-stops computation return the failure signal (and write
nothing to the cache), never a partial result. -/
theorem stops_fetch_failure_aborts (route_id : Int) (f : Fetchers)
    (dirs : List Direction) (d : Direction) (h1 : f.directions_resp = some dirs)
    (h2 : d ∈ dirs) (h3 : f.stops_resp d.direction_id = none) :
    get_route_stops route_id none f = (none, none) := by
  simp only [get_route_stops, h1]
  rw [processDirections_abort h2 h3]

theorem get_route_stops_congr {f1 f2 : Fetchers}
    (hroute : f1.route_resp = f2.route_resp)
    (hdir : f1.directions_resp = f2.directions_resp)
    (hsm : ∀ i, seqMapFor f1 i = seqMapFor f2 i)
    (hst : f1.stops_resp = f2.stops_resp)
    (hdt : f1.details_resp = f2.details_resp)
    (route_id : Int) (cached : Option RouteStopsResult) :
    get_route_stops route_id cached f1 = get_route_stops route_id cached f2 := by
  cases cached with
  | some c => rfl
  | none =>
    unfold get_route_stops
    rw [hroute, hdir]
    cases hd2 : f2.directions_resp with
    | none => rfl
    | some dirs =>
      simp only []
      rw [processDirections_congr hsm hst hdt dirs]

theorem get_route_stops_isSome_congr {f1 f2 : Fetchers}
    (hdir : f1.directions_resp = f2.directions_resp)
    (hpd : ∀ dirs, (processDirections f1 dirs).isSome = (processDirections f2 dirs).isSome)
    (route_id : Int) :
    (get_route_stops route_id none f1).1.isSome =
      (get_route_stops route_id none f2).1.isSome := by
  unfold get_route_stops
  rw [hdir]
  cases hd2 : f2.directions_resp with
  | none => rfl
  | some dirs =>
    simp only []
    have h2 := hpd dirs
    cases hp : processDirections f1 dirs <;> cases hq : processDirections f2 dirs <;>
      rw [hp, hq] at h2 <;> simp_all

/-- C8: upstream failures of the pattern fetch and of the per-stop
details fetch are non-fatal: a failed pattern fetch for a direction
behaves exactly like an empty pattern response (empty sequence map);
changing the details oracle never flips success/failure of the
aggregation; and with a failing details oracle a processed stop keeps
its identifier, name, coordinates and raw sequence un-enriched (only
the direction fields and the reconciled sequence are set). -/
theorem pattern_and_details_failures_nonfatal (route_id : Int) (f : Fetchers) (did : Int)
    (g : Int → Option StopDetails) (dir : Direction) (sm : List (Int × Int)) (s : Stop) :
    (get_route_stops route_id none
        { f with pattern_resp := Function.update f.pattern_resp did none } =
      get_route_stops route_id none
        { f with pattern_resp := Function.update f.pattern_resp did (some []) }) ∧
    ((get_route_stops route_id none { f with details_resp := g }).1.isSome =
      (get_route_stops route_id none f).1.isSome) ∧
    ((processStop (fun _ => none) dir sm s).stop_id = s.stop_id ∧
      (processStop (fun _ => none) dir sm s).stop_name = s.stop_name ∧
      (processStop (fun _ => none) dir sm s).stop_latitude = s.stop_latitude ∧
      (processStop (fun _ => none) dir sm s).stop_longitude = s.stop_longitude ∧
      (processStop (fun _ => none) dir sm s).stop_sequence = s.stop_sequence) := by
  refine ⟨?_, ?_, rfl, rfl, rfl, rfl, rfl⟩
  · have hsm : ∀ i,
        seqMapFor { f with pattern_resp := Function.update f.pattern_resp did none } i =
          seqMapFor { f with pattern_resp := Function.update f.pattern_resp did (some []) } i := by
      intro i
      unfold seqMapFor
      by_cases hi : i = did
      · subst hi
        simp [Function.update_same, buildSequenceMap]
      · simp [Function.update_noteq hi]
    exact @get_route_stops_congr
      { f with pattern_resp := Function.update f.pattern_resp did none }
      { f with pattern_resp := Function.update f.pattern_resp did (some []) }
      rfl rfl hsm rfl rfl route_id none
  · exact @get_route_stops_isSome_congr { f with details_resp := g } f rfl
      (processDirections_isSome_details f g) route_id

/-- C10: the cache entry is written only when the aggregation succeeds:
a cache hit writes nothing, any failure path returns the failure signal
with no write, and whatever is written equals the (successful) returned
result — the cache never receives a partial route-stops result. -/
theorem cache_write_only_on_success (route_id : Int) (cached : Option RouteStopsResult)
    (f : Fetchers) :
    (∀ c, cached = some c → (get_route_stops route_id cached f).2 = none) ∧
    ((get_route_stops route_id cached f).1 = none →
      (get_route_stops route_id cached f).2 = none) ∧
    (∀ v, (get_route_stops route_id cached f).2 = some v →
      (get_route_stops route_id cached f).1 = some v) := by
  cases cached with
  | some c => simp [get_route_stops]
  | none =>
    cases hdir : f.directions_resp with
    | none => simp [get_route_stops, hdir]
    | some dirs =>
      cases hpd : processDirections f dirs with
      | none => simp [get_route_stops, hdir, hpd]
      | some sbd => simp [get_route_stops, hdir, hpd]

/-- C9 (amended): enrichment overlays the details fields with
`dict.update` semantics, so the stop's identifier is preserved exactly
when the details record carries no identifier field or carries the same
identifier. -/
theorem enrichment_preserves_id_of_compatible (details : Int → Option StopDetails)
    (dir : Direction) (s : Stop)
    (h : ∀ d, details s.stop_id = some d → d.stop_id = none ∨ d.stop_id = some s.stop_id) :
    (enrichStop details dir s).stop_id = s.stop_id := by
  unfold enrichStop
  cases hd : details s.stop_id with
  | none => rfl
  | some d => rcases h d hd with h1 | h1 <;> simp [updateStop, h1]

/-- C9 counterexample: enriching with a details response that carries a
different identifier replaces the stop's identifier — `dict.update`
overwrites the `stop_id` key, so the claim as stated fails. -/
theorem enrichment_id_counterexample :
    (enrichStop (fun _ => some detW) dirW stopW).stop_id ≠ stopW.stop_id := by decide

/-! ### The distance calculator -/

theorem haversine_a_symm (lat1 lon1 lat2 lon2 : ℝ) :
    haversine_a lat1 lon1 lat2 lon2 = haversine_a lat2 lon2 lat1 lon1 := by
  have h : ∀ x y : ℝ, Real.sin ((x - y) / 2) ^ 2 = Real.sin ((y - x) / 2) ^ 2 := by
    intro x y
    rw [show (x - y) / 2 = -((y - x) / 2) by ring, Real.sin_neg, neg_sq]
  unfold haversine_a
  rw [h (radians lat2) (radians lat1), h (radians lon2) (radians lon1)]
  ring

theorem haversine_a_self (lat lon : ℝ) : haversine_a lat lon lat lon = 0 := by
  unfold haversine_a
  simp

/-- C7: the great-circle distance calculator gives distance 0 from any
point to itself, and is symmetric in its two points. -/
theorem calculate_distance_self_symm (lat lon lat1 lon1 lat2 lon2 : ℝ) :
    calculate_distance lat lon lat lon = 0 ∧
      calculate_distance lat1 lon1 lat2 lon2 = calculate_distance lat2 lon2 lat1 lon1 := by
  constructor
  · unfold calculate_distance
    rw [haversine_a_self, Real.sqrt_zero, sub_zero, Real.sqrt_one]
    unfold atan2
    rw [if_pos one_pos, zero_div, Real.arctan_zero, mul_zero, mul_zero]
  · unfold calculate_distance
    rw [haversine_a_symm lat1 lon1 lat2 lon2]

/-! ### Witnesses: the theorems above evaluated at concrete inputs -/

theorem absolute_sequence_reconciliation_witness :
    lookupSeq [((5 : Int), (42 : Int))]
        (enrichStop (fun _ => none) dirW stopW).stop_id = some 42 ∧
      (processStop (fun _ => none) dirW [((5 : Int), (42 : Int))] stopW).absolute_sequence =
        42 :=
  ⟨by decide,
    (absolute_sequence_reconciliation (fun _ => none) dirW [(5, 42)] stopW).1 42 (by decide)⟩

theorem route_stops_sorted_and_valid_witness :
    List.Sorted stopLe entryW.2 ∧ ∀ s ∈ entryW.2, s.absolute_sequence ≠ 999999 :=
  route_stops_sorted_and_valid 1 fetchW resultW (some resultW) (by decide) entryW (by decide)

theorem nearby_gigs_have_coords_within_radius_witness :
    ∃ la lo, ((gigW, (100 : Rat)) : Gig × Rat).1.venue_latitude = some la ∧
      ((gigW, (100 : Rat)) : Gig × Rat).1.venue_longitude = some lo ∧
      ((gigW, (100 : Rat)) : Gig × Rat).2 =
        distW attachedW.stop_latitude attachedW.stop_longitude la lo ∧
      ((gigW, (100 : Rat)) : Gig × Rat).2 ≤ 500 :=
  nearby_gigs_have_coords_within_radius distW [stopW] [gigW] attachedW (by decide)
    (gigW, 100) (by decide)

theorem find_nearby_output_sorted_any_witness :
    attachedW.nearby_gigs ≠ [] ∧ List.Sorted gigLe attachedW.nearby_gigs :=
  (find_nearby_output_sorted_any distW [stopW] [gigW]).1 attachedW (by decide)

theorem stops_fetch_failure_aborts_witness :
    fetchFailW.directions_resp = some [dirW] ∧ dirW ∈ [dirW] ∧
      fetchFailW.stops_resp dirW.direction_id = none ∧
      get_route_stops 1 none fetchFailW = (none, none) :=
  ⟨rfl, by decide, rfl,
    stops_fetch_failure_aborts 1 fetchFailW [dirW] dirW rfl (by decide) rfl⟩

theorem enrichment_preserves_id_witness :
    (enrichStop (fun _ => some detSameW) dirW stopW).stop_id = stopW.stop_id :=
  enrichment_preserves_id_of_compatible (fun _ => some detSameW) dirW stopW
    (fun d hd => by
      injection hd with h
      subst h
      exact Or.inr rfl)

theorem cache_write_only_on_success_witness :
    (get_route_stops 1 none fetchNoDirW).1 = none ∧
      (get_route_stops 1 none fetchNoDirW).2 = none :=
  ⟨by decide, (cache_write_only_on_success 1 none fetchNoDirW).2.1 (by decide)⟩

end PtvApp
